import Mathlib

/-!
Verification development for the KRONOS single-page site (`src/src/App.tsx`).

The numeric animation/orchestration core is shallowly embedded below:
pure derivations (hero parallax, scroll progress bar, nav hide-on-scroll,
animated counter, one-shot visibility) become Lean functions over `ℚ`
(mirroring JS floating-point formulas with exact rationals), and the
timer-driven preloader becomes an explicit discrete-event machine whose
timers mirror the `setTimeout`/`setInterval`/effect structure of the
component.
-/

namespace Kronos

/-! ## Hero parallax (`HeroSection`, App.tsx lines 1579-1586)

Source:
`const progress = Math.min(scrollY / (viewportHeight * 0.7), 1);`
`const contentOpacity = 1 - progress;`
`const contentTranslateY = scrollY * 0.3;`
`const contentScale = 1 - progress * 0.05;`
`const scrollIndicatorOpacity = Math.max(0, 1 - progress * 2);`
-/

def heroProgress (scrollY viewportHeight : ℚ) : ℚ :=
  min (scrollY / (viewportHeight * (7 / 10))) 1

def contentOpacity (scrollY viewportHeight : ℚ) : ℚ :=
  1 - heroProgress scrollY viewportHeight

def contentTranslateY (scrollY : ℚ) : ℚ := scrollY * (3 / 10)

def contentScale (scrollY viewportHeight : ℚ) : ℚ :=
  1 - heroProgress scrollY viewportHeight * (5 / 100)

def scrollIndicatorOpacity (scrollY viewportHeight : ℚ) : ℚ :=
  max 0 (1 - heroProgress scrollY viewportHeight * 2)

/-- The spec's clamp: `clamp(x, lo, hi)`. -/
def clampQ (x lo hi : ℚ) : ℚ := max lo (min x hi)

/-! ## Navigation hide-on-scroll (`Navigation`, App.tsx lines 1046-1066)

One scroll event updates `hideNav` from the previous offset
(`lastScrollY`), the current offset and the previous flag:
`if (currentScrollY > 500) { if (currentScrollY > lastScrollY &&
currentScrollY - lastScrollY > 10) setHideNav(true); else if
(lastScrollY - currentScrollY > 10) setHideNav(false); } else
setHideNav(false);` and then `lastScrollY := currentScrollY`. -/

def navStep (lastScrollY currentScrollY : ℚ) (hideNav : Bool) : Bool :=
  if 500 < currentScrollY then
    if lastScrollY < currentScrollY ∧ 10 < currentScrollY - lastScrollY then
      true
    else if 10 < lastScrollY - currentScrollY then
      false
    else hideNav
  else false

/-- The whole scroll-event sequence: fold `navStep` with the
`lastScrollY` bookkeeping (initial state `lastScrollY = 0`,
`hideNav = false`). -/
def navRun (events : List ℚ) : ℚ × Bool :=
  events.foldl (fun st cur => (cur, navStep st.1 cur st.2)) (0, false)

/-! ## Navigation hide translation (`Navigation`, App.tsx line 1190)

`hideNav && !mobileOpen ? '-translate-y-full' : 'translate-y-0'` -/

def navTranslateHidden (hideNav mobileOpen : Bool) : Bool :=
  hideNav && !mobileOpen

/-! ## Scroll progress bar (`ScrollProgressBar`, App.tsx lines 853-881)

`const scrollHeight = document.documentElement.scrollHeight - window.innerHeight;`
`const newProgress = scrollHeight > 0 ? (scrolled / scrollHeight) * 100 : 0;` -/

def scrollProgressBar (documentHeight viewportHeight scrolled : ℚ) : ℚ :=
  let scrollHeight := documentHeight - viewportHeight
  if 0 < scrollHeight then scrolled / scrollHeight * 100 else 0

/-- The spec's formula for the same quantity, on the same 0-100 scale:
`100 * clamp(offsetY / (documentHeight - viewportHeight), 0, 1)` when the
denominator is positive, else 0. Stated from the spec's words for
comparison with `scrollProgressBar`. -/
def scrollProgressSpec (documentHeight viewportHeight scrolled : ℚ) : ℚ :=
  if 0 < documentHeight - viewportHeight then
    100 * clampQ (scrolled / (documentHeight - viewportHeight)) 0 1
  else 0

/-! ## Body scroll lock (`SearchOverlay` effect, App.tsx lines 899-913;
`Navigation` mobile-menu effect, App.tsx lines 1093-1142)

Each overlay owns an effect keyed on its own open flag that writes
`document.body.style.overflow` directly: on every change of the flag the
effect re-runs and sets `overflow = 'hidden'` when the flag is true and
`overflow = ''` when it is false (the cleanup also writes `''`, which the
re-run immediately overwrites).  The body style is a single shared cell,
so the last writer wins.  An event is one flag change; `bodyLocked`
mirrors `overflow === 'hidden'`. -/

inductive OverlayEv where
  | setMobile (b : Bool)
  | setSearch (b : Bool)
deriving DecidableEq

structure OverlayState where
  mobileOpen : Bool
  searchOpen : Bool
  bodyLocked : Bool
deriving DecidableEq

def applyOverlayEv (st : OverlayState) : OverlayEv → OverlayState
  | .setMobile b => ⟨b, st.searchOpen, b⟩
  | .setSearch b => ⟨st.mobileOpen, b, b⟩

def runOverlay (events : List OverlayEv) : OverlayState :=
  events.foldl applyOverlayEv ⟨false, false, false⟩

/-! ## Animated counter (`AnimatedCounter`, App.tsx lines 235-270)

`increment = value / 60`; every 30ms: `current += increment; if (current
>= value) { setCount(value); clearInterval(interval); } else
setCount(Math.floor(current));`.  `counterTicks` returns the successive
displayed counts, ending with the snap tick that clears the interval;
fuel bounds the number of ticks simulated. -/

def counterTicks (fuel : ℕ) (value inc current : ℚ) : List ℚ :=
  match fuel with
  | 0 => []
  | fuel + 1 =>
    let c := current + inc
    if value ≤ c then [value]
    else (⌊c⌋ : ℚ) :: counterTicks fuel value inc c

/-- The displayed counts of one triggered counter run (61 ticks of fuel:
the accumulator reaches `value` after at most 60 ticks). -/
def counterDisplays (value : ℚ) : List ℚ :=
  counterTicks 61 value (value / 60) 0

/-! ## One-shot visibility triggers (`ManifestoSection` lines 1911-1916
and `DivisionCard` lines 2068-2069 call `useInView(ref, once := true)`).

Modelled from the spec: `useInView` itself lives in the external
framer-motion library, not in this repository's sources; the spec defines
its `once: true` semantics as a per-element boolean that is "set true
exactly once the element intersects the viewport past a configured
threshold; never reset (one-shot)".  An event is one intersection-observer
callback (`true` = element crossed its threshold into view). -/

def inViewStep (flag isIntersecting : Bool) : Bool := flag || isIntersecting

/-- The flag's value after each observer callback, starting hidden. -/
def inViewTrace (events : List Bool) : List Bool :=
  events.scanl inViewStep false

/-- Number of `false → true` transitions in a flag history; each such
rise is one firing of the reveal animation. -/
def rises : List Bool → ℕ
  | a :: b :: rest => (if a = false ∧ b = true then 1 else 0) + rises (b :: rest)
  | _ => 0

/-! ## Preloader stage machine (`Preloader`, App.tsx lines 419-460)

`runStage` drives `currentProgress` through the fixed stage table.  For a
stage with target `t` and duration `d`, the per-tick increment is
`(t - currentProgress) / (d / 16)` and a `setInterval` fires every 16ms:
`currentProgress += increment; if (currentProgress >= target) {
currentProgress = target; clearInterval; currentStage++;
setTimeout(runStage, 50 + random()*100); } else
setProgress(Math.floor(currentProgress));`.  The machine starts 300ms
after mount (`setTimeout(runStage, 300)`), and when the table is
exhausted it runs `setPhase('complete'); setTimeout(() =>
setAssetsReady(true), 400)`. -/

/-- Number of 16ms interval firings a stage takes: ticks are counted
until the accumulated progress first reaches the target (`fuel` bounds
the recursion; 64 ticks cover every stage of the table). -/
def ticksUntil (fuel : ℕ) (p target inc : ℚ) : ℕ :=
  match fuel with
  | 0 => 0
  | fuel + 1 =>
    if target ≤ p + inc then 1
    else 1 + ticksUntil fuel (p + inc) target inc

def stageTicks (p target d : ℚ) : ℕ :=
  ticksUntil 64 p target ((target - p) / (d / 16))

/-- The stage table of `Preloader` (target, duration in ms). -/
def stages : List (ℚ × ℚ) :=
  [(15, 200), (35, 400), (55, 300), (75, 500), (90, 400), (100, 200)]

/-- Walk the stage table: each stage ends with the snap
`currentProgress = stage.target` (so the next stage starts from the
previous target exactly) followed by its inter-stage pause; the result is
the time at which the final `runStage` call finds the table exhausted and
sets the phase to `complete`. -/
def runStagesTime : List ((ℚ × ℚ) × ℚ) → ℚ → ℚ → ℚ
  | [], _, now => now
  | ((target, d), pause) :: rest, p, now =>
    runStagesTime rest target (now + 16 * stageTicks p target d + pause)

/-- Completion time of the stage machine, for a given choice of the six
random inter-stage pauses (`50 + Math.random()*100` each), measured from
mount: the 300ms start delay plus tick time plus pauses. -/
def completionTime (pauses : List ℚ) : ℚ :=
  runStagesTime (stages.zip pauses) 0 300

/-! ## Preloader timer machine (`Preloader`, App.tsx lines 390-471)

The component's effects and raw timers, as a discrete-event system.
Timeline entries carry an absolute due time; executing the earliest entry
mirrors the event loop.  The concrete timers of the source:

* `skipTimer` (line 398): at 2000ms sets `showSkip` - act `showSkipA`.
* `timeoutFallback` (lines 403-410): the watchdog, re-armed with the
  freshly captured `phase` whenever the `phase` dependency changes, and
  cleared on unmount; its body runs `setPhase('exit');
  setTimeout(onComplete, 300)` when the captured phase is not `exit` -
  acts `watchdog` / `watchdogDone`.
* `handleSkip` (lines 414-417): a user click, effective only while the
  skip button is rendered (`showSkip && phase === 'loading'`, line 680):
  `setPhase('exit'); setTimeout(onComplete, 300)` - acts `skipClick` /
  `skipDone`.
* stage machine end (lines 433-437, summarised by `completionTime`):
  `setPhase('complete'); setTimeout(() => setAssetsReady(true), 400)` -
  acts `stageDone` / `assetsSet`.
* exit effect (lines 463-471): when `assetsReady` becomes true, arm
  `exitTimer` at +600 (cleared on unmount) whose body runs
  `setPhase('exit'); setTimeout(onComplete, 800)` - acts `exitArm` /
  `exitDone`.

`onComplete` is `() => setLoaded(true)` in `App` (line 2437): its first
invocation unmounts the Preloader, which runs every effect cleanup
(clearing `skipTimer`, `timeoutFallback` and `exitTimer`); already
scheduled raw callbacks (`setTimeout(onComplete, …)`, the stage interval
chain and the `setAssetsReady` timeout) are not cleared, but `setPhase` /
`setAssetsReady` on the unmounted component do nothing and its effects
never re-run.  `fired` records every invocation time of `onComplete`. -/

inductive Phase where
  | loading
  | complete
  | exit
deriving DecidableEq

inductive Ev where
  | phaseEv (p : Phase)
  | assetsEv
deriving DecidableEq

inductive Act where
  | showSkipA
  | skipClick
  | watchdog (captured : Phase)
  | watchdogDone
  | stageDone
  | assetsSet
  | exitArm
  | exitDone
  | skipDone
deriving DecidableEq

structure Timer where
  due : ℚ
  act : Act
deriving DecidableEq

structure PState where
  phase : Phase
  assetsReady : Bool
  mounted : Bool
  showSkip : Bool
  fired : List ℚ
  log : List (ℚ × Ev)
  timers : List Timer
deriving DecidableEq

/-- Pop the earliest-due timer (earliest-registered wins ties). -/
def popMin : List Timer → Option (Timer × List Timer)
  | [] => none
  | t :: ts =>
    match popMin ts with
    | none => some (t, [])
    | some (m, rest) => if t.due ≤ m.due then some (t, ts) else some (m, t :: rest)

/-- Timers surviving a re-run of the watchdog effect (its cleanup clears
the previous `timeoutFallback`). -/
def keepOnPhase (a : Act) : Bool :=
  match a with
  | .watchdog _ => false
  | _ => true

/-- Timers surviving unmount: every effect cleanup runs (`skipTimer`,
`timeoutFallback`, `exitTimer`); raw already-scheduled callbacks stay. -/
def keepOnUnmount (a : Act) : Bool :=
  match a with
  | .watchdog _ => false
  | .exitArm => false
  | .showSkipA => false
  | _ => true

/-- Re-arm the watchdog 10000ms from `now`, capturing the new phase. -/
def armWatchdog (now : ℚ) (p : Phase) (ts : List Timer) : List Timer :=
  (ts.filter fun t => keepOnPhase t.act) ++ [⟨now + 10000, .watchdog p⟩]

/-- `setPhase p` on a mounted component: when the value changes, the
watchdog effect (dependency `phase`) re-runs; unmounted, a no-op. -/
def setPhaseM (now : ℚ) (p : Phase) (st : PState) : PState :=
  if st.mounted then
    if st.phase = p then st
    else
      { st with
        phase := p
        log := st.log ++ [(now, Ev.phaseEv p)]
        timers := armWatchdog now p st.timers }
  else st

/-- One invocation of `onComplete`: always recorded; the first one (while
mounted) unmounts the Preloader, running all effect cleanups. -/
def fireComplete (now : ℚ) (st : PState) : PState :=
  let st := { st with fired := st.fired ++ [now] }
  if st.mounted then
    { st with mounted := false, timers := st.timers.filter fun t => keepOnUnmount t.act }
  else st

def execAct (now : ℚ) (a : Act) (st : PState) : PState :=
  match a with
  | .showSkipA => if st.mounted then { st with showSkip := true } else st
  | .skipClick =>
    if st.mounted && st.showSkip && decide (st.phase = Phase.loading) then
      let st := setPhaseM now .exit st
      { st with timers := st.timers ++ [⟨now + 300, .skipDone⟩] }
    else st
  | .watchdog captured =>
    if captured = Phase.exit then st
    else
      let st := setPhaseM now .exit st
      { st with timers := st.timers ++ [⟨now + 300, .watchdogDone⟩] }
  | .stageDone =>
    let st := setPhaseM now .complete st
    { st with timers := st.timers ++ [⟨now + 400, .assetsSet⟩] }
  | .assetsSet =>
    if st.mounted && !st.assetsReady then
      { st with
        assetsReady := true
        log := st.log ++ [(now, Ev.assetsEv)]
        timers := st.timers ++ [⟨now + 600, .exitArm⟩] }
    else st
  | .exitArm =>
    let st := setPhaseM now .exit st
    { st with timers := st.timers ++ [⟨now + 800, .exitDone⟩] }
  | .watchdogDone => fireComplete now st
  | .exitDone => fireComplete now st
  | .skipDone => fireComplete now st

/-- Run the event loop: repeatedly execute the earliest due timer. -/
def run : ℕ → PState → PState
  | 0, st => st
  | fuel + 1, st =>
    match popMin st.timers with
    | none => st
    | some (t, rest) => run fuel (execAct t.due t.act { st with timers := rest })

/-- State at mount.  `stalled = true` simulates a stage that never
signals (the stage-machine chain never completes); `skipAt` is the time
of a user click on the skip control, if any. -/
def initState (stalled : Bool) (pauses : List ℚ) (skipAt : Option ℚ) : PState where
  phase := .loading
  assetsReady := false
  mounted := true
  showSkip := false
  fired := []
  log := []
  timers :=
    [⟨2000, .showSkipA⟩, ⟨10000, .watchdog .loading⟩]
      ++ (if stalled then [] else [⟨completionTime pauses, .stageDone⟩])
      ++ (match skipAt with | none => [] | some s => [⟨s, .skipClick⟩])

/-- The three ways a preloader run can end. -/
inductive ExitScenario where
  | normal (pauses : List ℚ)
  | skip (pauses : List ℚ) (s : ℚ)
  | stalled

def scInit : ExitScenario → PState
  | .normal pauses => initState false pauses none
  | .skip pauses s => initState false pauses (some s)
  | .stalled => initState true [] none

/-- Six pauses, each drawn from `50 + Math.random()*100`. -/
def validPauses (pauses : List ℚ) : Prop :=
  pauses.length = 6 ∧ ∀ p ∈ pauses, 50 ≤ p ∧ p ≤ 150

/-- Scenario sanity: a skip click needs the skip button, which exists
from 2000ms while the phase is still `loading`. -/
def scValid : ExitScenario → Prop
  | .normal pauses => validPauses pauses
  | .skip pauses s => validPauses pauses ∧ 2000 ≤ s ∧ s < completionTime pauses
  | .stalled => True

/-! ### Evaluation helpers for the event loop -/

lemma popMin_single (t : Timer) : popMin [t] = some (t, []) := rfl

lemma popMin_cons_le {ts : List Timer} {m : Timer} {rest : List Timer} (t : Timer)
    (h : popMin ts = some (m, rest)) (hle : t.due ≤ m.due) :
    popMin (t :: ts) = some (t, ts) := by
  simp [popMin, h, hle]

lemma popMin_cons_gt {ts : List Timer} {m : Timer} {rest : List Timer} (t : Timer)
    (h : popMin ts = some (m, rest)) (hgt : ¬ t.due ≤ m.due) :
    popMin (t :: ts) = some (m, t :: rest) := by
  simp [popMin, h, hgt]

lemma run_step (n : ℕ) (st : PState) {t : Timer} {rest : List Timer}
    (h : popMin st.timers = some (t, rest)) :
    run (n + 1) st = run n (execAct t.due t.act { st with timers := rest }) := by
  simp [run, h]

lemma run_empty (n : ℕ) (st : PState) (h : popMin st.timers = none) :
    run n st = st := by
  cases n <;> simp [run, h]

/-! ### The six stage tick counts and the completion-time window -/

lemma stageTicks_one : stageTicks 0 15 200 = 13 := by
  norm_num [stageTicks, ticksUntil]

lemma stageTicks_two : stageTicks 15 35 400 = 25 := by
  norm_num [stageTicks, ticksUntil]

lemma stageTicks_three : stageTicks 35 55 300 = 19 := by
  norm_num [stageTicks, ticksUntil]

lemma stageTicks_four : stageTicks 55 75 500 = 32 := by
  norm_num [stageTicks, ticksUntil]

lemma stageTicks_five : stageTicks 75 90 400 = 25 := by
  norm_num [stageTicks, ticksUntil]

lemma stageTicks_six : stageTicks 90 100 200 = 13 := by
  norm_num [stageTicks, ticksUntil]

/-- With the six pauses explicit, the stage machine finishes 2332ms plus
the pauses after mount (300 start + 2032 of 16ms ticks + pauses). -/
lemma completionTime_six (a b c d e f : ℚ) :
    completionTime [a, b, c, d, e, f] = 2332 + (a + b + c + d + e + f) := by
  norm_num [completionTime, stages, runStagesTime, stageTicks_one, stageTicks_two,
    stageTicks_three, stageTicks_four, stageTicks_five, stageTicks_six]
  ring

lemma completionTime_bounds {pauses : List ℚ} (h : validPauses pauses) :
    2632 ≤ completionTime pauses ∧ completionTime pauses ≤ 3232 := by
  obtain ⟨hlen, hmem⟩ := h
  match pauses, hlen with
  | [a, b, c, d, e, f], _ =>
    have ha := hmem a (by simp)
    have hb := hmem b (by simp)
    have hc := hmem c (by simp)
    have hd := hmem d (by simp)
    have he := hmem e (by simp)
    have hf := hmem f (by simp)
    rw [completionTime_six]
    constructor <;> linarith [ha.1, ha.2, hb.1, hb.2, hc.1, hc.2, hd.1, hd.2,
      he.1, he.2, hf.1, hf.2]


/-! ### The three exit paths of a preloader run -/

/-- Stalled stages, no skip: the watchdog fires at 10000ms, forcing the
phase to `exit`, and the completion callback fires once at 10300ms. -/
lemma run_stalled :
    run 16 (scInit .stalled) =
      ⟨Phase.exit, false, false, true, [10300], [(10000, Ev.phaseEv Phase.exit)], []⟩ := by
  have e0 : scInit .stalled = ⟨Phase.loading, false, true, false, [], [],
      [⟨2000, .showSkipA⟩, ⟨10000, .watchdog .loading⟩]⟩ := by
    norm_num [scInit, initState]
  rw [e0]
  have hp1 : popMin [⟨2000, Act.showSkipA⟩, ⟨10000, Act.watchdog Phase.loading⟩] =
      some (⟨2000, .showSkipA⟩, [⟨10000, .watchdog .loading⟩]) :=
    popMin_cons_le _ (popMin_single _) (by norm_num)
  rw [show (16:ℕ) = 15+1 from rfl,
    run_step 15 ⟨Phase.loading, false, true, false, [], [],
      [⟨2000, .showSkipA⟩, ⟨10000, .watchdog .loading⟩]⟩ hp1]
  have he1 : execAct 2000 Act.showSkipA ⟨Phase.loading, false, true, false, [], [],
      [⟨10000, .watchdog .loading⟩]⟩ = ⟨Phase.loading, false, true, true, [], [],
      [⟨10000, .watchdog .loading⟩]⟩ := by
    simp [execAct]
  rw [he1]
  have hp2 : popMin [(⟨10000, Act.watchdog Phase.loading⟩ : Timer)] =
      some (⟨10000, .watchdog .loading⟩, []) := popMin_single _
  rw [show (15:ℕ) = 14+1 from rfl,
    run_step 14 ⟨Phase.loading, false, true, true, [], [],
      [⟨10000, .watchdog .loading⟩]⟩ hp2]
  have he2 : execAct 10000 (Act.watchdog Phase.loading) ⟨Phase.loading, false, true, true, [], [], []⟩ =
      ⟨Phase.exit, false, true, true, [], [(10000, Ev.phaseEv Phase.exit)],
        [⟨20000, .watchdog .exit⟩, ⟨10300, .watchdogDone⟩]⟩ := by
    simp [execAct, setPhaseM, armWatchdog, keepOnPhase, List.filter]
    norm_num
  rw [he2]
  have hp3 : popMin [(⟨20000, Act.watchdog Phase.exit⟩ : Timer), ⟨10300, Act.watchdogDone⟩] =
      some (⟨10300, .watchdogDone⟩, [⟨20000, .watchdog .exit⟩]) :=
    popMin_cons_gt _ (popMin_single _) (by norm_num)
  rw [show (14:ℕ) = 13+1 from rfl,
    run_step 13 ⟨Phase.exit, false, true, true, [], [(10000, Ev.phaseEv Phase.exit)],
      [⟨20000, .watchdog .exit⟩, ⟨10300, .watchdogDone⟩]⟩ hp3]
  have he3 : execAct 10300 Act.watchdogDone ⟨Phase.exit, false, true, true, [],
      [(10000, Ev.phaseEv Phase.exit)], [⟨20000, .watchdog .exit⟩]⟩ =
      ⟨Phase.exit, false, false, true, [10300], [(10000, Ev.phaseEv Phase.exit)], []⟩ := by
    simp [execAct, fireComplete, keepOnUnmount, List.filter]
  rw [he3]
  exact run_empty 13 _ rfl

/-- Normal completion: phase `complete` at the stage machine's
completion time, `assetsReady` 400ms later, phase `exit` 600ms after
that, and the one callback 800ms after that. -/
lemma run_normal {ps : List ℚ} (h : validPauses ps) :
    run 16 (scInit (.normal ps)) =
      ⟨Phase.exit, true, false, true, [completionTime ps + 400 + 600 + 800],
        [(completionTime ps, Ev.phaseEv Phase.complete),
         (completionTime ps + 400, Ev.assetsEv),
         (completionTime ps + 400 + 600, Ev.phaseEv Phase.exit)], []⟩ := by
  obtain ⟨hT1, hT2⟩ := completionTime_bounds h
  have e0 : scInit (.normal ps) = ⟨Phase.loading, false, true, false, [], [],
      [⟨2000, .showSkipA⟩, ⟨10000, .watchdog .loading⟩, ⟨completionTime ps, .stageDone⟩]⟩ := by
    simp [scInit, initState]
  rw [e0]
  have hpin : popMin [⟨10000, Act.watchdog Phase.loading⟩,
      ⟨completionTime ps, Act.stageDone⟩] =
      some (⟨completionTime ps, .stageDone⟩, [⟨10000, .watchdog .loading⟩]) :=
    popMin_cons_gt _ (popMin_single _)
      (by show ¬ (10000 : ℚ) ≤ completionTime ps; linarith)
  have hp1 : popMin [⟨2000, Act.showSkipA⟩, ⟨10000, Act.watchdog Phase.loading⟩,
      ⟨completionTime ps, Act.stageDone⟩] =
      some (⟨2000, .showSkipA⟩,
        [⟨10000, .watchdog .loading⟩, ⟨completionTime ps, .stageDone⟩]) :=
    popMin_cons_le _ hpin (by show (2000 : ℚ) ≤ completionTime ps; linarith)
  rw [show (16:ℕ) = 15+1 from rfl,
    run_step 15 ⟨Phase.loading, false, true, false, [], [],
      [⟨2000, .showSkipA⟩, ⟨10000, .watchdog .loading⟩,
       ⟨completionTime ps, .stageDone⟩]⟩ hp1]
  have he1 : execAct 2000 Act.showSkipA ⟨Phase.loading, false, true, false, [], [],
      [⟨10000, .watchdog .loading⟩, ⟨completionTime ps, .stageDone⟩]⟩ =
      ⟨Phase.loading, false, true, true, [], [],
      [⟨10000, .watchdog .loading⟩, ⟨completionTime ps, .stageDone⟩]⟩ := by
    simp [execAct]
  rw [he1]
  rw [show (15:ℕ) = 14+1 from rfl,
    run_step 14 ⟨Phase.loading, false, true, true, [], [],
      [⟨10000, .watchdog .loading⟩, ⟨completionTime ps, .stageDone⟩]⟩ hpin]
  have he2 : execAct (completionTime ps) Act.stageDone ⟨Phase.loading, false, true, true, [], [],
      [⟨10000, .watchdog .loading⟩]⟩ =
      ⟨Phase.complete, false, true, true, [], [(completionTime ps, Ev.phaseEv Phase.complete)],
        [⟨completionTime ps + 10000, .watchdog .complete⟩,
         ⟨completionTime ps + 400, .assetsSet⟩]⟩ := by
    simp [execAct, setPhaseM, armWatchdog, keepOnPhase, List.filter]
  rw [he2]
  have hp3 : popMin [⟨completionTime ps + 10000, Act.watchdog Phase.complete⟩,
      ⟨completionTime ps + 400, Act.assetsSet⟩] =
      some (⟨completionTime ps + 400, .assetsSet⟩,
        [⟨completionTime ps + 10000, .watchdog .complete⟩]) :=
    popMin_cons_gt _ (popMin_single _)
      (by show ¬ completionTime ps + 10000 ≤ completionTime ps + 400; linarith)
  rw [show (14:ℕ) = 13+1 from rfl,
    run_step 13 ⟨Phase.complete, false, true, true, [],
      [(completionTime ps, Ev.phaseEv Phase.complete)],
      [⟨completionTime ps + 10000, .watchdog .complete⟩,
       ⟨completionTime ps + 400, .assetsSet⟩]⟩ hp3]
  have he3 : execAct (completionTime ps + 400) Act.assetsSet ⟨Phase.complete, false, true, true, [],
      [(completionTime ps, Ev.phaseEv Phase.complete)],
      [⟨completionTime ps + 10000, .watchdog .complete⟩]⟩ =
      ⟨Phase.complete, true, true, true, [],
      [(completionTime ps, Ev.phaseEv Phase.complete), (completionTime ps + 400, Ev.assetsEv)],
      [⟨completionTime ps + 10000, .watchdog .complete⟩,
       ⟨completionTime ps + 400 + 600, .exitArm⟩]⟩ := by
    simp [execAct]
  rw [he3]
  have hp4 : popMin [⟨completionTime ps + 10000, Act.watchdog Phase.complete⟩,
      ⟨completionTime ps + 400 + 600, Act.exitArm⟩] =
      some (⟨completionTime ps + 400 + 600, .exitArm⟩,
        [⟨completionTime ps + 10000, .watchdog .complete⟩]) :=
    popMin_cons_gt _ (popMin_single _)
      (by show ¬ completionTime ps + 10000 ≤ completionTime ps + 400 + 600; linarith)
  rw [show (13:ℕ) = 12+1 from rfl,
    run_step 12 ⟨Phase.complete, true, true, true, [],
      [(completionTime ps, Ev.phaseEv Phase.complete), (completionTime ps + 400, Ev.assetsEv)],
      [⟨completionTime ps + 10000, .watchdog .complete⟩,
       ⟨completionTime ps + 400 + 600, .exitArm⟩]⟩ hp4]
  have he4 : execAct (completionTime ps + 400 + 600) Act.exitArm ⟨Phase.complete, true, true, true, [],
      [(completionTime ps, Ev.phaseEv Phase.complete), (completionTime ps + 400, Ev.assetsEv)],
      [⟨completionTime ps + 10000, .watchdog .complete⟩]⟩ =
      ⟨Phase.exit, true, true, true, [],
      [(completionTime ps, Ev.phaseEv Phase.complete), (completionTime ps + 400, Ev.assetsEv),
       (completionTime ps + 400 + 600, Ev.phaseEv Phase.exit)],
      [⟨completionTime ps + 400 + 600 + 10000, .watchdog .exit⟩,
       ⟨completionTime ps + 400 + 600 + 800, .exitDone⟩]⟩ := by
    simp [execAct, setPhaseM, armWatchdog, keepOnPhase, List.filter]
  rw [he4]
  have hp5 : popMin [⟨completionTime ps + 400 + 600 + 10000, Act.watchdog Phase.exit⟩,
      ⟨completionTime ps + 400 + 600 + 800, Act.exitDone⟩] =
      some (⟨completionTime ps + 400 + 600 + 800, .exitDone⟩,
        [⟨completionTime ps + 400 + 600 + 10000, .watchdog .exit⟩]) :=
    popMin_cons_gt _ (popMin_single _)
      (by show ¬ completionTime ps + 400 + 600 + 10000 ≤ completionTime ps + 400 + 600 + 800
          linarith)
  rw [show (12:ℕ) = 11+1 from rfl,
    run_step 11 ⟨Phase.exit, true, true, true, [],
      [(completionTime ps, Ev.phaseEv Phase.complete), (completionTime ps + 400, Ev.assetsEv),
       (completionTime ps + 400 + 600, Ev.phaseEv Phase.exit)],
      [⟨completionTime ps + 400 + 600 + 10000, .watchdog .exit⟩,
       ⟨completionTime ps + 400 + 600 + 800, .exitDone⟩]⟩ hp5]
  have he5 : execAct (completionTime ps + 400 + 600 + 800) Act.exitDone ⟨Phase.exit, true, true, true, [],
      [(completionTime ps, Ev.phaseEv Phase.complete), (completionTime ps + 400, Ev.assetsEv),
       (completionTime ps + 400 + 600, Ev.phaseEv Phase.exit)],
      [⟨completionTime ps + 400 + 600 + 10000, .watchdog .exit⟩]⟩ =
      ⟨Phase.exit, true, false, true, [completionTime ps + 400 + 600 + 800],
      [(completionTime ps, Ev.phaseEv Phase.complete), (completionTime ps + 400, Ev.assetsEv),
       (completionTime ps + 400 + 600, Ev.phaseEv Phase.exit)], []⟩ := by
    simp [execAct, fireComplete, keepOnUnmount, List.filter]
  rw [he5]
  exact run_empty 11 _ rfl

/-- An effective skip at time `s`: the callback fires exactly once, at
`s + 300`, whether or not the still-running stage machine completes
before the callback lands. -/
lemma run_skip {ps : List ℚ} {s : ℚ} (h : validPauses ps)
    (hs1 : 2000 ≤ s) (hs2 : s < completionTime ps) :
    (run 16 (scInit (.skip ps s))).fired = [s + 300] := by
  obtain ⟨hT1, hT2⟩ := completionTime_bounds h
  have e0 : scInit (.skip ps s) = ⟨Phase.loading, false, true, false, [], [],
      [⟨2000, .showSkipA⟩, ⟨10000, .watchdog .loading⟩, ⟨completionTime ps, .stageDone⟩,
       ⟨s, .skipClick⟩]⟩ := by
    simp [scInit, initState]
  rw [e0]
  have hpa : popMin [⟨completionTime ps, Act.stageDone⟩, ⟨s, Act.skipClick⟩] =
      some (⟨s, .skipClick⟩, [⟨completionTime ps, .stageDone⟩]) :=
    popMin_cons_gt _ (popMin_single _) (by show ¬ completionTime ps ≤ s; linarith)
  have hpb : popMin [⟨10000, Act.watchdog Phase.loading⟩, ⟨completionTime ps, Act.stageDone⟩,
      ⟨s, Act.skipClick⟩] =
      some (⟨s, .skipClick⟩,
        [⟨10000, .watchdog .loading⟩, ⟨completionTime ps, .stageDone⟩]) :=
    popMin_cons_gt _ hpa (by show ¬ (10000 : ℚ) ≤ s; linarith)
  have hp1 : popMin [⟨2000, Act.showSkipA⟩, ⟨10000, Act.watchdog Phase.loading⟩,
      ⟨completionTime ps, Act.stageDone⟩, ⟨s, Act.skipClick⟩] =
      some (⟨2000, .showSkipA⟩,
        [⟨10000, .watchdog .loading⟩, ⟨completionTime ps, .stageDone⟩, ⟨s, .skipClick⟩]) :=
    popMin_cons_le _ hpb (by show (2000 : ℚ) ≤ s; linarith)
  rw [show (16:ℕ) = 15+1 from rfl,
    run_step 15 ⟨Phase.loading, false, true, false, [], [],
      [⟨2000, .showSkipA⟩, ⟨10000, .watchdog .loading⟩, ⟨completionTime ps, .stageDone⟩,
       ⟨s, .skipClick⟩]⟩ hp1]
  have he1 : execAct 2000 Act.showSkipA ⟨Phase.loading, false, true, false, [], [],
      [⟨10000, .watchdog .loading⟩, ⟨completionTime ps, .stageDone⟩, ⟨s, .skipClick⟩]⟩ =
      ⟨Phase.loading, false, true, true, [], [],
      [⟨10000, .watchdog .loading⟩, ⟨completionTime ps, .stageDone⟩, ⟨s, .skipClick⟩]⟩ := by
    simp [execAct]
  rw [he1]
  rw [show (15:ℕ) = 14+1 from rfl,
    run_step 14 ⟨Phase.loading, false, true, true, [], [],
      [⟨10000, .watchdog .loading⟩, ⟨completionTime ps, .stageDone⟩, ⟨s, .skipClick⟩]⟩ hpb]
  have he2 : execAct s Act.skipClick ⟨Phase.loading, false, true, true, [], [],
      [⟨10000, .watchdog .loading⟩, ⟨completionTime ps, .stageDone⟩]⟩ =
      ⟨Phase.exit, false, true, true, [], [(s, Ev.phaseEv Phase.exit)],
      [⟨completionTime ps, .stageDone⟩, ⟨s + 10000, .watchdog .exit⟩,
       ⟨s + 300, .skipDone⟩]⟩ := by
    simp [execAct, setPhaseM, armWatchdog, keepOnPhase, List.filter]
  rw [he2]
  rcases lt_or_le (s + 300) (completionTime ps) with hA | hB
  · -- the callback lands before the stage machine would have completed
    have hpc : popMin [⟨s + 10000, Act.watchdog Phase.exit⟩, ⟨s + 300, Act.skipDone⟩] =
        some (⟨s + 300, .skipDone⟩, [⟨s + 10000, .watchdog .exit⟩]) :=
      popMin_cons_gt _ (popMin_single _) (by show ¬ s + 10000 ≤ s + 300; linarith)
    have hp3 : popMin [⟨completionTime ps, Act.stageDone⟩,
        ⟨s + 10000, Act.watchdog Phase.exit⟩, ⟨s + 300, Act.skipDone⟩] =
        some (⟨s + 300, .skipDone⟩,
          [⟨completionTime ps, .stageDone⟩, ⟨s + 10000, .watchdog .exit⟩]) :=
      popMin_cons_gt _ hpc (by show ¬ completionTime ps ≤ s + 300; linarith)
    rw [show (14:ℕ) = 13+1 from rfl,
      run_step 13 ⟨Phase.exit, false, true, true, [], [(s, Ev.phaseEv Phase.exit)],
        [⟨completionTime ps, .stageDone⟩, ⟨s + 10000, .watchdog .exit⟩,
         ⟨s + 300, .skipDone⟩]⟩ hp3]
    have he3 : execAct (s + 300) Act.skipDone ⟨Phase.exit, false, true, true, [],
        [(s, Ev.phaseEv Phase.exit)],
        [⟨completionTime ps, .stageDone⟩, ⟨s + 10000, .watchdog .exit⟩]⟩ =
        ⟨Phase.exit, false, false, true, [s + 300], [(s, Ev.phaseEv Phase.exit)],
        [⟨completionTime ps, .stageDone⟩]⟩ := by
      simp [execAct, fireComplete, keepOnUnmount, List.filter]
    rw [he3]
    rw [show (13:ℕ) = 12+1 from rfl,
      run_step 12 ⟨Phase.exit, false, false, true, [s + 300], [(s, Ev.phaseEv Phase.exit)],
        [⟨completionTime ps, .stageDone⟩]⟩ (popMin_single _)]
    have he4 : execAct (completionTime ps) Act.stageDone ⟨Phase.exit, false, false, true,
        [s + 300], [(s, Ev.phaseEv Phase.exit)], []⟩ =
        ⟨Phase.exit, false, false, true, [s + 300], [(s, Ev.phaseEv Phase.exit)],
        [⟨completionTime ps + 400, .assetsSet⟩]⟩ := by
      simp [execAct, setPhaseM]
    rw [he4]
    rw [show (12:ℕ) = 11+1 from rfl,
      run_step 11 ⟨Phase.exit, false, false, true, [s + 300],
        [(s, Ev.phaseEv Phase.exit)], [⟨completionTime ps + 400, .assetsSet⟩]⟩
        (popMin_single _)]
    have he5 : execAct (completionTime ps + 400) Act.assetsSet ⟨Phase.exit, false, false, true,
        [s + 300], [(s, Ev.phaseEv Phase.exit)], []⟩ =
        ⟨Phase.exit, false, false, true, [s + 300], [(s, Ev.phaseEv Phase.exit)], []⟩ := by
      simp [execAct]
    rw [he5, run_empty 11 ⟨Phase.exit, false, false, true, [s + 300],
      [(s, Ev.phaseEv Phase.exit)], []⟩ rfl]
  · -- the stage machine completes while the skip callback is pending
    have hpc : popMin [⟨s + 10000, Act.watchdog Phase.exit⟩, ⟨s + 300, Act.skipDone⟩] =
        some (⟨s + 300, .skipDone⟩, [⟨s + 10000, .watchdog .exit⟩]) :=
      popMin_cons_gt _ (popMin_single _) (by show ¬ s + 10000 ≤ s + 300; linarith)
    have hp3 : popMin [⟨completionTime ps, Act.stageDone⟩,
        ⟨s + 10000, Act.watchdog Phase.exit⟩, ⟨s + 300, Act.skipDone⟩] =
        some (⟨completionTime ps, .stageDone⟩,
          [⟨s + 10000, .watchdog .exit⟩, ⟨s + 300, .skipDone⟩]) :=
      popMin_cons_le _ hpc (by show completionTime ps ≤ s + 300; linarith)
    rw [show (14:ℕ) = 13+1 from rfl,
      run_step 13 ⟨Phase.exit, false, true, true, [], [(s, Ev.phaseEv Phase.exit)],
        [⟨completionTime ps, .stageDone⟩, ⟨s + 10000, .watchdog .exit⟩,
         ⟨s + 300, .skipDone⟩]⟩ hp3]
    have he3 : execAct (completionTime ps) Act.stageDone ⟨Phase.exit, false, true, true, [],
        [(s, Ev.phaseEv Phase.exit)],
        [⟨s + 10000, .watchdog .exit⟩, ⟨s + 300, .skipDone⟩]⟩ =
        ⟨Phase.complete, false, true, true, [],
        [(s, Ev.phaseEv Phase.exit), (completionTime ps, Ev.phaseEv Phase.complete)],
        [⟨s + 300, .skipDone⟩, ⟨completionTime ps + 10000, .watchdog .complete⟩,
         ⟨completionTime ps + 400, .assetsSet⟩]⟩ := by
      simp [execAct, setPhaseM, armWatchdog, keepOnPhase, List.filter]
    rw [he3]
    have hpd : popMin [⟨completionTime ps + 10000, Act.watchdog Phase.complete⟩,
        ⟨completionTime ps + 400, Act.assetsSet⟩] =
        some (⟨completionTime ps + 400, .assetsSet⟩,
          [⟨completionTime ps + 10000, .watchdog .complete⟩]) :=
      popMin_cons_gt _ (popMin_single _)
        (by show ¬ completionTime ps + 10000 ≤ completionTime ps + 400; linarith)
    have hp4 : popMin [⟨s + 300, Act.skipDone⟩,
        ⟨completionTime ps + 10000, Act.watchdog Phase.complete⟩,
        ⟨completionTime ps + 400, Act.assetsSet⟩] =
        some (⟨s + 300, .skipDone⟩,
          [⟨completionTime ps + 10000, .watchdog .complete⟩,
           ⟨completionTime ps + 400, .assetsSet⟩]) :=
      popMin_cons_le _ hpd (by show s + 300 ≤ completionTime ps + 400; linarith)
    rw [show (13:ℕ) = 12+1 from rfl,
      run_step 12 ⟨Phase.complete, false, true, true, [],
        [(s, Ev.phaseEv Phase.exit), (completionTime ps, Ev.phaseEv Phase.complete)],
        [⟨s + 300, .skipDone⟩, ⟨completionTime ps + 10000, .watchdog .complete⟩,
         ⟨completionTime ps + 400, .assetsSet⟩]⟩ hp4]
    have he4 : execAct (s + 300) Act.skipDone ⟨Phase.complete, false, true, true, [],
        [(s, Ev.phaseEv Phase.exit), (completionTime ps, Ev.phaseEv Phase.complete)],
        [⟨completionTime ps + 10000, .watchdog .complete⟩,
         ⟨completionTime ps + 400, .assetsSet⟩]⟩ =
        ⟨Phase.complete, false, false, true, [s + 300],
        [(s, Ev.phaseEv Phase.exit), (completionTime ps, Ev.phaseEv Phase.complete)],
        [⟨completionTime ps + 400, .assetsSet⟩]⟩ := by
      simp [execAct, fireComplete, keepOnUnmount, List.filter]
    rw [he4]
    rw [show (12:ℕ) = 11+1 from rfl,
      run_step 11 ⟨Phase.complete, false, false, true, [s + 300],
        [(s, Ev.phaseEv Phase.exit), (completionTime ps, Ev.phaseEv Phase.complete)],
        [⟨completionTime ps + 400, .assetsSet⟩]⟩ (popMin_single _)]
    have he5 : execAct (completionTime ps + 400) Act.assetsSet ⟨Phase.complete, false, false,
        true, [s + 300],
        [(s, Ev.phaseEv Phase.exit), (completionTime ps, Ev.phaseEv Phase.complete)], []⟩ =
        ⟨Phase.complete, false, false, true, [s + 300],
        [(s, Ev.phaseEv Phase.exit), (completionTime ps, Ev.phaseEv Phase.complete)], []⟩ := by
      simp [execAct]
    rw [he5, run_empty 11 ⟨Phase.complete, false, false, true, [s + 300],
      [(s, Ev.phaseEv Phase.exit), (completionTime ps, Ev.phaseEv Phase.complete)], []⟩ rfl]



/-! ### Stage-tick, counter and one-shot-trigger lemmas -/

lemma ticksUntil_spec : ∀ (fuel : ℕ) (p : ℚ) {target inc : ℚ}, 0 < inc → p < target →
    target ≤ p + fuel * inc →
    1 ≤ ticksUntil fuel p target inc ∧
    target ≤ p + (ticksUntil fuel p target inc : ℚ) * inc ∧
    ∀ k : ℕ, 0 < k → k < ticksUntil fuel p target inc → p + (k : ℚ) * inc < target := by
  intro fuel
  induction fuel with
  | zero =>
    intro p target inc hinc hpt hfuel
    simp only [Nat.cast_zero, zero_mul, add_zero] at hfuel
    exact absurd hfuel (not_le.2 hpt)
  | succ m ih =>
    intro p target inc hinc hpt hfuel
    rw [ticksUntil]
    by_cases hstop : target ≤ p + inc
    · rw [if_pos hstop]
      refine ⟨le_refl 1, by simpa using hstop, ?_⟩
      intro k hk0 hk1
      omega
    · rw [if_neg hstop]
      push_neg at hstop
      have hfuel' : target ≤ p + inc + (m : ℚ) * inc := by
        have : ((m : ℚ) + 1) * inc = inc + (m : ℚ) * inc := by ring
        calc target ≤ p + ((m + 1 : ℕ) : ℚ) * inc := hfuel
          _ = p + inc + (m : ℚ) * inc := by push_cast; ring
      obtain ⟨h1, h2, h3⟩ := ih (p + inc) hinc hstop hfuel'
      refine ⟨by omega, ?_, ?_⟩
      · calc target ≤ p + inc + (ticksUntil m (p + inc) target inc : ℚ) * inc := h2
          _ = p + ((1 + ticksUntil m (p + inc) target inc : ℕ) : ℚ) * inc := by
            push_cast; ring
      · intro k hk0 hkn
        match k, hk0 with
        | 1, _ => simpa using hstop
        | (j + 2), _ =>
          have hj : j + 1 < ticksUntil m (p + inc) target inc := by omega
          have := h3 (j + 1) (by omega) hj
          calc p + ((j + 2 : ℕ) : ℚ) * inc = p + inc + ((j + 1 : ℕ) : ℚ) * inc := by
                push_cast; ring
            _ < target := this

lemma counterTicks_mem_le : ∀ (fuel : ℕ) (v inc c : ℚ), 0 ≤ inc → c ≤ v →
    ∀ x ∈ counterTicks fuel v inc c, x ≤ v := by
  intro fuel
  induction fuel with
  | zero => intro v inc c _ _ x hx; simp [counterTicks] at hx
  | succ m ih =>
    intro v inc c hinc hc x hx
    rw [counterTicks] at hx
    by_cases hstop : v ≤ c + inc
    · rw [if_pos hstop] at hx
      have hxy : x = v := by simpa using hx
      exact le_of_eq hxy
    · rw [if_neg hstop] at hx
      push_neg at hstop
      rcases List.mem_cons.1 hx with hfl | htl
      · calc x = ((⌊c + inc⌋ : ℤ) : ℚ) := hfl
          _ ≤ c + inc := Int.floor_le _
          _ ≤ v := le_of_lt hstop
      · exact ih v inc (c + inc) hinc (le_of_lt hstop) x htl

lemma counterTicks_chain : ∀ (fuel : ℕ) (v inc c : ℚ), 0 ≤ inc → c ≤ v →
    List.Chain' (fun a b => a ≤ b) (((⌊c⌋ : ℤ) : ℚ) :: counterTicks fuel v inc c) := by
  intro fuel
  induction fuel with
  | zero => intro v inc c _ _; simp [counterTicks]
  | succ m ih =>
    intro v inc c hinc hc
    rw [counterTicks]
    by_cases hstop : v ≤ c + inc
    · rw [if_pos hstop]
      refine List.chain'_cons.2 ⟨?_, by simp⟩
      calc ((⌊c⌋ : ℤ) : ℚ) ≤ c := Int.floor_le _
        _ ≤ v := hc
    · rw [if_neg hstop]
      push_neg at hstop
      refine List.chain'_cons.2 ⟨?_, ih v inc (c + inc) hinc (le_of_lt hstop)⟩
      exact_mod_cast Int.floor_le_floor (by linarith : c ≤ c + inc)

lemma counterTicks_getLast : ∀ (fuel : ℕ) (v inc c : ℚ), v ≤ c + fuel * inc → 1 ≤ fuel →
    (counterTicks fuel v inc c).getLast? = some v := by
  intro fuel
  induction fuel with
  | zero => intro v inc c _ h; omega
  | succ m ih =>
    intro v inc c hfuel _
    rw [counterTicks]
    by_cases hstop : v ≤ c + inc
    · rw [if_pos hstop]; rfl
    · rw [if_neg hstop]
      push_neg at hstop
      have hm : 1 ≤ m := by
        by_contra hm0
        have : m = 0 := by omega
        subst this
        have hle : v ≤ c + inc := by push_cast at hfuel; linarith
        exact absurd hle (not_le.2 hstop)
      have hfuel' : v ≤ c + inc + (m : ℚ) * inc := by
        calc v ≤ c + ((m + 1 : ℕ) : ℚ) * inc := hfuel
          _ = c + inc + (m : ℚ) * inc := by push_cast; ring
      have htl := ih v inc (c + inc) hfuel' hm
      match hlist : counterTicks m v inc (c + inc) with
      | [] => rw [hlist] at htl; simp at htl
      | b :: l => rw [hlist] at htl; rw [List.getLast?_cons_cons]; exact htl

lemma scanl_inViewStep_true : ∀ events : List Bool,
    events.scanl inViewStep true = List.replicate (events.length + 1) true := by
  intro events
  induction events with
  | nil => simp [List.scanl]
  | cons e es ih =>
    simp [List.scanl, inViewStep, List.replicate, ih]

lemma rises_replicate_true : ∀ n : ℕ, rises (List.replicate (n + 1) true) = 0 := by
  intro n
  induction n with
  | zero => simp [List.replicate, rises]
  | succ m ih =>
    rw [List.replicate, List.replicate]
    rw [show rises (true :: true :: List.replicate m true) =
      (if true = false ∧ true = true then 1 else 0) + rises (true :: List.replicate m true)
      from rfl]
    rw [List.replicate] at ih
    simp [ih]

lemma chain_le_replicate_true : ∀ n : ℕ,
    List.Chain' (fun a b : Bool => a ≤ b) (List.replicate n true) := by
  intro n
  induction n with
  | zero => simp
  | succ m ih =>
    match m, ih with
    | 0, _ => simp
    | m + 1, ih =>
      rw [List.replicate]
      rw [List.replicate] at ih ⊢
      exact List.chain'_cons.2 ⟨le_refl true, ih⟩

lemma inViewTrace_shape (events : List Bool) :
    rises (inViewTrace events) = (if true ∈ events then 1 else 0) ∧
    List.Chain' (fun a b : Bool => a ≤ b) (inViewTrace events) := by
  induction events with
  | nil => simp [inViewTrace, List.scanl, rises]
  | cons e es ih =>
    cases e with
    | true =>
      have htr : inViewTrace (true :: es) = false :: List.replicate (es.length + 1) true := by
        simp [inViewTrace, List.scanl, inViewStep, scanl_inViewStep_true]
      rw [htr]
      constructor
      · rw [List.replicate]
        rw [show rises (false :: true :: List.replicate es.length true) =
          (if false = false ∧ true = true then 1 else 0) +
            rises (true :: List.replicate es.length true) from rfl]
        have h2 : rises (true :: List.replicate es.length true) = 0 := by
          have h3 := rises_replicate_true es.length
          rwa [List.replicate] at h3
        simp [h2]
      · refine List.chain'_cons.2 ⟨by simp, ?_⟩
        exact chain_le_replicate_true (es.length + 1)
    | false =>
      have htr : inViewTrace (false :: es) = false :: inViewTrace es := by
        simp [inViewTrace, List.scanl, inViewStep]
      rw [htr]
      obtain ⟨ih1, ih2⟩ := ih
      have hhead : ∃ rest, inViewTrace es = false :: rest := by
        cases es <;> exact ⟨_, rfl⟩
      obtain ⟨rest, hrest⟩ := hhead
      constructor
      · rw [hrest]
        rw [show rises (false :: false :: rest) =
          (if false = false ∧ false = true then 1 else 0) + rises (false :: rest) from rfl]
        rw [hrest] at ih1
        simpa using ih1
      · rw [hrest]
        refine List.chain'_cons.2 ⟨le_refl false, ?_⟩
        rw [hrest] at ih2
        exact ih2


/-! ## Claim theorems -/

/-- C2: for all scrollY in [0, viewportHeight] (positive viewport), the
hero's contentOpacity equals 1 - clamp(scrollY / (viewportHeight * 0.7),
0, 1), and contentOpacity is monotonically non-increasing in scrollY. -/
theorem hero_content_opacity_clamped_monotone (vh s1 s2 : ℚ) (hvh : 0 < vh)
    (h0 : 0 ≤ s1) (h12 : s1 ≤ s2) (h2vh : s2 ≤ vh) :
    contentOpacity s1 vh = 1 - clampQ (s1 / (vh * (7 / 10))) 0 1 ∧
    contentOpacity s2 vh ≤ contentOpacity s1 vh := by
  constructor
  · unfold contentOpacity heroProgress clampQ
    have hpos : (0 : ℚ) ≤ s1 / (vh * (7 / 10)) := by positivity
    rw [max_eq_right (le_min hpos zero_le_one)]
  · unfold contentOpacity heroProgress
    have hd : (0 : ℚ) < vh * (7 / 10) := by positivity
    have hdiv : s1 / (vh * (7 / 10)) ≤ s2 / (vh * (7 / 10)) := by gcongr
    exact sub_le_sub_left (min_le_min hdiv (le_refl 1)) 1

/-- Witness for C2 at viewportHeight 1000, scrollY 100 and 200. -/
theorem hero_content_opacity_clamped_monotone_witness :
    contentOpacity 100 1000 = 1 - clampQ ((100 : ℚ) / (1000 * (7 / 10))) 0 1 ∧
    contentOpacity 200 1000 ≤ contentOpacity 100 1000 :=
  hero_content_opacity_clamped_monotone 1000 100 200 (by norm_num) (by norm_num)
    (by norm_num) (by norm_num)

/-- C3, counterexample to the claim as stated: at offset 610 (past the
500 threshold) with previous offset 620 the upward delta is exactly 10
("at least 10"), yet the code leaves hidden = true instead of setting it
to false (the source requires a delta strictly greater than 10). -/
theorem nav_hidden_up_delta_ten_counterexample :
    (10 : ℚ) ≤ (620 : ℚ) - 610 ∧ (500 : ℚ) < 610 ∧ navStep 620 610 true = true := by
  refine ⟨by norm_num, by norm_num, ?_⟩
  unfold navStep
  norm_num

/-- C3 as amended: hidden becomes true only when the offset exceeds 500
and the downward delta is at least 10 (the code requires strictly more
than 10, which implies it); an upward delta of MORE than 10 sets hidden
to false; at or below offset 500 hidden is forced to false. -/
theorem nav_hidden_threshold_delta_rules (lastY curY : ℚ) (hide : Bool) :
    (navStep lastY curY hide = true ∧ hide = false →
      500 < curY ∧ 10 ≤ curY - lastY) ∧
    (10 < lastY - curY → navStep lastY curY hide = false) ∧
    (curY ≤ 500 → navStep lastY curY hide = false) := by
  refine ⟨?_, ?_, ?_⟩
  · rintro ⟨hstep, hfalse⟩
    subst hfalse
    unfold navStep at hstep
    by_cases h1 : (500 : ℚ) < curY
    · rw [if_pos h1] at hstep
      by_cases h2 : lastY < curY ∧ 10 < curY - lastY
      · exact ⟨h1, by linarith [h2.2]⟩
      · rw [if_neg h2] at hstep
        by_cases h3 : (10 : ℚ) < lastY - curY
        · rw [if_pos h3] at hstep
          exact nomatch hstep
        · rw [if_neg h3] at hstep
          exact nomatch hstep
    · rw [if_neg h1] at hstep
      exact nomatch hstep
  · intro hup
    unfold navStep
    by_cases h1 : (500 : ℚ) < curY
    · rw [if_pos h1]
      have h2 : ¬ (lastY < curY ∧ 10 < curY - lastY) := by
        rintro ⟨hlt, _⟩
        linarith
      rw [if_neg h2, if_pos hup]
    · rw [if_neg h1]
  · intro hc
    unfold navStep
    rw [if_neg (by linarith : ¬ (500 : ℚ) < curY)]

/-- Witness for C3: a scroll from 0 to 600 hides the nav (and satisfies
the only-when conditions); a scroll from 620 up to 400 shows it. -/
theorem nav_hidden_threshold_delta_rules_witness :
    ((500 : ℚ) < 600 ∧ (10 : ℚ) ≤ 600 - 0) ∧ navStep 620 400 true = false :=
  ⟨(nav_hidden_threshold_delta_rules 0 600 false).1 ⟨by unfold navStep; norm_num, rfl⟩,
   (nav_hidden_threshold_delta_rules 620 400 true).2.2 (by norm_num)⟩

/-- C10: the hide translation is applied exactly when hideNav is true and
the mobile menu is closed, for every combination of the two flags; in
particular the nav is never translated off-screen while the mobile menu
is open. -/
theorem nav_never_hidden_while_mobile_open (hideNav mobileOpen : Bool) :
    navTranslateHidden hideNav mobileOpen = true ↔
      hideNav = true ∧ mobileOpen = false := by
  cases hideNav <;> cases mobileOpen <;> simp [navTranslateHidden]

/-- C7, counterexample to the claim as stated: with documentHeight 2000,
viewportHeight 1000 and offsetY 2000 (beyond the scrollable range) the
code's unclamped progress is 200%, while the spec's clamped formula gives
100% - so the code value can exceed 100%. -/
theorem scroll_progress_unclamped_counterexample :
    scrollProgressBar 2000 1000 2000 = 200 ∧ scrollProgressSpec 2000 1000 2000 = 100 := by
  constructor
  · unfold scrollProgressBar
    norm_num
  · unfold scrollProgressSpec clampQ
    norm_num

/-- C7 as amended: for offsets within the scrollable range
[0, documentHeight - viewportHeight] the derived progress agrees with the
clamped formula and never exceeds 100%; with a non-positive denominator
it is 0.  (The code applies no clamp, so the agreement is limited to that
range.) -/
theorem scroll_progress_clamped_in_range (docH viewH y : ℚ) :
    (0 < docH - viewH → 0 ≤ y → y ≤ docH - viewH →
      scrollProgressBar docH viewH y = scrollProgressSpec docH viewH y ∧
      scrollProgressBar docH viewH y ≤ 100) ∧
    (docH - viewH ≤ 0 → scrollProgressBar docH viewH y = 0) := by
  constructor
  · intro hd h0 hy
    have hdiv0 : (0 : ℚ) ≤ y / (docH - viewH) := by positivity
    have hdiv1 : y / (docH - viewH) ≤ 1 := (div_le_one hd).2 hy
    constructor
    · unfold scrollProgressBar scrollProgressSpec clampQ
      rw [if_pos hd, if_pos hd, min_eq_left hdiv1, max_eq_right hdiv0]
      ring
    · unfold scrollProgressBar
      rw [if_pos hd]
      nlinarith
  · intro hd
    unfold scrollProgressBar
    rw [if_neg (not_lt.2 hd)]

/-- Witness for C7: in-range offset 500 of a 2000/1000 page matches the
clamped formula; a non-scrollable page reports 0. -/
theorem scroll_progress_clamped_in_range_witness :
    (scrollProgressBar 2000 1000 500 = scrollProgressSpec 2000 1000 500 ∧
      scrollProgressBar 2000 1000 500 ≤ 100) ∧
    scrollProgressBar 1000 1200 777 = 0 :=
  ⟨(scroll_progress_clamped_in_range 2000 1000 500).1 (by norm_num) (by norm_num)
      (by norm_num),
   (scroll_progress_clamped_in_range 1000 1200 777).2 (by norm_num)⟩

/-- C8: evaluating the overlay effects on the failing event sequence
(open mobile menu, open search, close search) shows the body scroll lock
released (bodyLocked = false) while the mobile menu is still open - the
per-overlay overflow writes are last-writer-wins, not reference-counted,
so closing one overlay prematurely unlocks body scroll. -/
theorem body_scroll_lock_premature_unlock :
    (runOverlay [.setMobile true, .setSearch true, .setSearch false]).mobileOpen = true ∧
    (runOverlay [.setMobile true, .setSearch true, .setSearch false]).bodyLocked = false :=
  ⟨rfl, rfl⟩

/-- C9: for every target value at least 0, the triggered counter's
displayed counts are monotonically non-decreasing, never exceed the
target, and the tick loop terminates with the count snapped exactly to
the target (its last displayed value). -/
theorem animated_counter_monotone_capped_terminal (v : ℚ) (hv : 0 ≤ v) :
    (counterDisplays v).getLast? = some v ∧
    List.Chain' (fun a b => a ≤ b) (counterDisplays v) ∧
    ∀ x ∈ counterDisplays v, x ≤ v := by
  have hinc : (0 : ℚ) ≤ v / 60 := by positivity
  refine ⟨?_, ?_, ?_⟩
  · apply counterTicks_getLast 61 v (v / 60) 0 _ (by norm_num)
    push_cast
    linarith
  · have hch := counterTicks_chain 61 v (v / 60) 0 hinc hv
    exact (List.chain'_cons'.1 hch).2
  · exact counterTicks_mem_le 61 v (v / 60) 0 hinc hv

/-- Witness for C9 at target value 7. -/
theorem animated_counter_monotone_capped_terminal_witness :
    (counterDisplays 7).getLast? = some 7 :=
  (animated_counter_monotone_capped_terminal 7 (by norm_num)).1

/-- C6: every per-element visibility trigger is one-shot: over any
intersection-event sequence the flag rises from false to true exactly
once if the element ever crosses its threshold (never if it does not),
and the flag history is monotone - once visible, the element stays
visible even when scrolled back out of view. -/
theorem inview_trigger_one_shot (events : List Bool) :
    rises (inViewTrace events) = (if true ∈ events then 1 else 0) ∧
    List.Chain' (fun a b => a ≤ b) (inViewTrace events) :=
  inViewTrace_shape events

/-- C1: for every preloader run - normal stage completion, an effective
user skip, or the stalled-stages watchdog path - the external completion
callback fires exactly once. -/
theorem preloader_callback_fires_exactly_once (sc : ExitScenario) (h : scValid sc) :
    ((run 16 (scInit sc)).fired).length = 1 := by
  cases sc with
  | normal pauses =>
    rw [run_normal h]
    rfl
  | skip pauses s =>
    obtain ⟨hv, hs1, hs2⟩ := h
    rw [run_skip hv hs1 hs2]
    rfl
  | stalled =>
    rw [run_stalled]
    rfl

/-- Witness for C1: a skip at 2500ms with all inter-stage pauses 100ms
fires the callback exactly once. -/
theorem preloader_callback_fires_exactly_once_witness :
    ((run 16 (scInit (.skip [100, 100, 100, 100, 100, 100] 2500))).fired).length = 1 :=
  preloader_callback_fires_exactly_once (.skip [100, 100, 100, 100, 100, 100] 2500)
    ⟨⟨by norm_num, by intro p hp; fin_cases hp <;> norm_num⟩, by norm_num, by
      rw [completionTime_six]; norm_num⟩

/-- C4: with stalled stages and no skip, the watchdog - an absolute timer
untouched by stage progress - forces the phase to Exit at exactly 10000ms
after mount (the only phase change of the run), and the completion
callback fires at 10300ms, i.e. 10000ms plus the 300ms callback delay. -/
theorem preloader_watchdog_forces_exit_at_10000 :
    (run 16 (scInit .stalled)).log = [((10000 : ℚ), Ev.phaseEv Phase.exit)] ∧
    (run 16 (scInit .stalled)).fired = [(10300 : ℚ)] := by
  rw [run_stalled]
  exact ⟨rfl, rfl⟩

/-- C5: within a stage the progress accumulator grows by the constant
per-tick increment (target - start) / (duration / 16) each 16ms tick,
staying below the target until the final tick reaches or exceeds it
(after which the source snaps it exactly to the target); and after the
final stage the run's event log shows phase Complete at the stage
machine's completion time, assetsReady 400ms later, phase Exit 600ms
after that, and the single completion callback 800ms after that. -/
theorem preloader_stage_dynamics_and_exit_sequence {pauses : List ℚ}
    (h : validPauses pauses) :
    (∀ p target d : ℚ, p < target → 0 < d → d ≤ 1024 →
      1 ≤ stageTicks p target d ∧
      target ≤ p + (stageTicks p target d : ℚ) * ((target - p) / (d / 16)) ∧
      ∀ k : ℕ, 0 < k → k < stageTicks p target d →
        p + (k : ℚ) * ((target - p) / (d / 16)) < target) ∧
    (run 16 (scInit (.normal pauses))).log =
      [(completionTime pauses, Ev.phaseEv Phase.complete),
       (completionTime pauses + 400, Ev.assetsEv),
       (completionTime pauses + 400 + 600, Ev.phaseEv Phase.exit)] ∧
    (run 16 (scInit (.normal pauses))).fired =
      [completionTime pauses + 400 + 600 + 800] := by
  refine ⟨?_, ?_, ?_⟩
  · intro p target d hpt hd hd1024
    have hd16 : (0 : ℚ) < d / 16 := by positivity
    have hinc : 0 < (target - p) / (d / 16) := div_pos (by linarith) hd16
    have h64 : target ≤ p + (64 : ℕ) * ((target - p) / (d / 16)) := by
      have hrw : ((64 : ℕ) : ℚ) * ((target - p) / (d / 16)) =
          (target - p) * (1024 / d) := by
        field_simp
        ring
      rw [hrw]
      have h1 : (1 : ℚ) ≤ 1024 / d := (one_le_div hd).2 hd1024
      nlinarith [mul_le_mul_of_nonneg_left h1 (by linarith : (0 : ℚ) ≤ target - p)]
    exact ticksUntil_spec 64 p hinc hpt h64
  · rw [run_normal h]
  · rw [run_normal h]

/-- Witness for C5 with all six pauses at 50ms. -/
theorem preloader_stage_dynamics_and_exit_sequence_witness :
    1 ≤ stageTicks 0 15 200 ∧
    (run 16 (scInit (.normal [50, 50, 50, 50, 50, 50]))).fired =
      [completionTime [50, 50, 50, 50, 50, 50] + 400 + 600 + 800] := by
  have hv : validPauses [50, 50, 50, 50, 50, 50] :=
    ⟨by norm_num, by intro p hp; fin_cases hp <;> norm_num⟩
  have h := preloader_stage_dynamics_and_exit_sequence hv
  exact ⟨(h.1 0 15 200 (by norm_num) (by norm_num) (by norm_num)).1, h.2.2⟩

end Kronos
